import Mathlib

/-!
Verification of the Mergington High School activities service
(`src/app.py`): a roster store of activities and signups, with three
operations (list, signup, unregister) and a seed-if-empty initialization.

The database layer (`db.py`, imported by `app.py` but not part of the
sources) is modelled from the spec's description of the persisted state:
a table of activities (unique name, description, schedule,
max_participants nullable) and a table of signups (activity reference,
email). Queries are modelled as ordered lists: `first()` is the head of
the rows matching the filter, `count()` the number of matching rows.
-/

/-- Modelled from the spec: a row of the activities table (`db.py` is not in
the sources). `id` is the database primary key, `max_participants` is a
nullable integer column (`none` = unbounded). -/
structure Activity where
  id : Nat
  name : String
  description : String
  schedule : String
  max_participants : Option Nat
  deriving Repr, DecidableEq

/-- Modelled from the spec: a row of the signups table (`db.py` is not in
the sources): an activity reference plus a student email. -/
structure Signup where
  activity_id : Nat
  email : String
  deriving Repr, DecidableEq

/-- Modelled from the spec: the persisted state, the two tables in row
(insertion) order. -/
structure Store where
  activities : List Activity
  signups : List Signup
  deriving Repr, DecidableEq

/-- Outcome of an endpoint call: a success message, or an HTTPException
with its status code and detail string (as raised in `app.py`). -/
inductive ApiResult where
  | ok (message : String)
  | err (status : Nat) (detail : String)
  deriving Repr, DecidableEq

/-- `session.query(Activity).filter(Activity.name == activity_name).first()`
(`app.py` lines 140 and 168). -/
def findActivity (s : Store) (activity_name : String) : Option Activity :=
  (s.activities.filter (fun a => a.name == activity_name)).head?

/-- `session.query(Signup).filter(Signup.activity_id == aid, Signup.email == email).first()`
(`app.py` lines 145-149 and 172-176). -/
def findSignup (s : Store) (aid : Nat) (email : String) : Option Signup :=
  (s.signups.filter (fun g => g.activity_id == aid && g.email == email)).head?

/-- `session.query(Signup).filter(Signup.activity_id == aid).count()`
(`app.py` line 154). -/
def countSignups (s : Store) (aid : Nat) : Nat :=
  (s.signups.filter (fun g => g.activity_id == aid)).length

/-- The Python condition `activity.max_participants and count >= activity.max_participants`
(`app.py` line 155): `None` and `0` are falsy, so the capacity test is
skipped for them. -/
def capacityFull (mp : Option Nat) (count : Nat) : Bool :=
  match mp with
  | none => false
  | some m => m != 0 && m ≤ count

/-- `signup_for_activity` (`app.py` lines 136-161). The returned store is
the input store on every error path, since the exception is raised before
any mutation of the session. -/
def signup_for_activity (s : Store) (activity_name email : String) :
    Store × ApiResult :=
  match findActivity s activity_name with
  | none => (s, .err 404 "Activity not found")
  | some activity =>
    match findSignup s activity.id email with
    | some _ => (s, .err 400 "Student is already signed up")
    | none =>
      if capacityFull activity.max_participants (countSignups s activity.id) then
        (s, .err 400 "Activity is full")
      else
        ({ s with signups := s.signups ++ [⟨activity.id, email⟩] },
         .ok ("Signed up " ++ email ++ " for " ++ activity_name))

/-- `unregister_from_activity` (`app.py` lines 164-182). `session.delete`
removes the one row returned by `first()`, the first matching row. -/
def unregister_from_activity (s : Store) (activity_name email : String) :
    Store × ApiResult :=
  match findActivity s activity_name with
  | none => (s, .err 404 "Activity not found")
  | some activity =>
    match findSignup s activity.id email with
    | none => (s, .err 400 "Student is not signed up for this activity")
    | some existing =>
      ({ s with signups := s.signups.erase existing },
       .ok ("Unregistered " ++ email ++ " from " ++ activity_name))

/-- The value stored under an activity's name by `get_activities`
(`app.py` lines 127-132). -/
structure ActivityView where
  description : String
  schedule : String
  max_participants : Option Nat
  participants : List String
  deriving Repr, DecidableEq

/-- Python dict assignment `result[k] = v`: overwrite if the key is
present, else append (dicts preserve insertion order). -/
def dictInsert (d : List (String × ActivityView)) (k : String)
    (v : ActivityView) : List (String × ActivityView) :=
  if d.any (fun p => p.1 == k) then
    d.map (fun p => if p.1 == k then (k, v) else p)
  else d ++ [(k, v)]

/-- `get_activities` (`app.py` lines 119-133): builds a dict from activity
name to its view; `a.signups` is the list of signup rows referencing the
activity, in row order. -/
def get_activities (s : Store) : List (String × ActivityView) :=
  s.activities.foldl
    (fun result a =>
      dictInsert result a.name
        ⟨a.description, a.schedule, a.max_participants,
         (s.signups.filter (fun g => g.activity_id == a.id)).map
           (fun g => g.email)⟩)
    []

/-- One entry of `INITIAL_ACTIVITIES` (`app.py` lines 27-91). -/
structure SeedActivity where
  name : String
  description : String
  schedule : String
  max_participants : Nat
  participants : List String
  deriving Repr, DecidableEq

/-- `INITIAL_ACTIVITIES` (`app.py` lines 27-91). -/
def INITIAL_ACTIVITIES : List SeedActivity :=
  [⟨"Chess Club",
    "Learn strategies and compete in chess tournaments",
    "Fridays, 3:30 PM - 5:00 PM", 12,
    ["michael@mergington.edu", "daniel@mergington.edu"]⟩,
   ⟨"Programming Class",
    "Learn programming fundamentals and build software projects",
    "Tuesdays and Thursdays, 3:30 PM - 4:30 PM", 20,
    ["emma@mergington.edu", "sophia@mergington.edu"]⟩,
   ⟨"Gym Class",
    "Physical education and sports activities",
    "Mondays, Wednesdays, Fridays, 2:00 PM - 3:00 PM", 30,
    ["john@mergington.edu", "olivia@mergington.edu"]⟩,
   ⟨"Soccer Team",
    "Join the school soccer team and compete in matches",
    "Tuesdays and Thursdays, 4:00 PM - 5:30 PM", 22,
    ["liam@mergington.edu", "noah@mergington.edu"]⟩,
   ⟨"Basketball Team",
    "Practice and play basketball with the school team",
    "Wednesdays and Fridays, 3:30 PM - 5:00 PM", 15,
    ["ava@mergington.edu", "mia@mergington.edu"]⟩,
   ⟨"Art Club",
    "Explore your creativity through painting and drawing",
    "Thursdays, 3:30 PM - 5:00 PM", 15,
    ["amelia@mergington.edu", "harper@mergington.edu"]⟩,
   ⟨"Drama Club",
    "Act, direct, and produce plays and performances",
    "Mondays and Wednesdays, 4:00 PM - 5:30 PM", 20,
    ["ella@mergington.edu", "scarlett@mergington.edu"]⟩,
   ⟨"Math Club",
    "Solve challenging problems and participate in math competitions",
    "Tuesdays, 3:30 PM - 4:30 PM", 10,
    ["james@mergington.edu", "benjamin@mergington.edu"]⟩,
   ⟨"Debate Team",
    "Develop public speaking and argumentation skills",
    "Fridays, 4:00 PM - 5:30 PM", 12,
    ["charlotte@mergington.edu", "henry@mergington.edu"]⟩]

/-- One iteration of the seed loop (`app.py` lines 99-110): insert the
activity row, flush to obtain its primary key, then insert one signup row
per initial participant. Modelled from the spec: `db.py` is not in the
sources, so the autoincrement key is modelled as one past the number of
activity rows. -/
def seedInsert (s : Store) (a : SeedActivity) : Store :=
  let act : Activity :=
    ⟨s.activities.length + 1, a.name, a.description, a.schedule,
     some a.max_participants⟩
  { activities := s.activities ++ [act],
    signups := s.signups ++ a.participants.map (fun p => ⟨act.id, p⟩) }

/-- The module-level seed block (`app.py` lines 94-111): if the activities
table is empty, insert every entry of `INITIAL_ACTIVITIES`, else do
nothing. -/
def seed_if_empty (s : Store) : Store :=
  if s.activities.length = 0 then INITIAL_ACTIVITIES.foldl seedInsert s
  else s

/-- One external call to the service: a signup or an unregister request. -/
inductive Call where
  | signup (activity_name email : String)
  | unregister (activity_name email : String)
  deriving Repr, DecidableEq

/-- The store after handling one call (errors leave the store unchanged). -/
def applyCall (s : Store) (c : Call) : Store :=
  match c with
  | .signup an e => (signup_for_activity s an e).1
  | .unregister an e => (unregister_from_activity s an e).1

/-- The store after handling a sequence of calls in order. -/
def runCalls (s : Store) (cs : List Call) : Store :=
  cs.foldl applyCall s

/-- Well-formedness guaranteed by the database schema and the data model:
primary keys are distinct, and a set `max_participants` is a positive
integer (the spec types it "positive integer or unbounded"). -/
def WellFormed (s : Store) : Prop :=
  (s.activities.map (fun a => a.id)).Nodup ∧
    ∀ a ∈ s.activities, ∀ m, a.max_participants = some m → 0 < m

/-- The capacity invariant: no activity with a set maximum has more
signups than that maximum. -/
def CapacityInv (s : Store) : Prop :=
  ∀ a ∈ s.activities, ∀ m, a.max_participants = some m →
    countSignups s a.id ≤ m

/-- At most one signup row per (activity, email) pair. -/
def PairInv (s : Store) : Prop :=
  ∀ aid e,
    (s.signups.filter (fun g => g.activity_id == aid && g.email == e)).length ≤ 1

/-! ### Basic lemmas about the store operations -/

theorem findActivity_mem {s : Store} {n : String} {a : Activity}
    (h : findActivity s n = some a) : a ∈ s.activities := by
  unfold findActivity at h
  exact List.mem_of_mem_filter (List.mem_of_mem_head? (Option.mem_def.mpr h))

theorem findSignup_eq_none_iff {s : Store} {aid : Nat} {e : String} :
    findSignup s aid e = none ↔ Signup.mk aid e ∉ s.signups := by
  unfold findSignup
  rw [List.head?_eq_none_iff, List.filter_eq_nil_iff]
  constructor
  · intro h hmem
    have := h _ hmem
    simp at this
  · intro h g hg hp
    simp only [Bool.and_eq_true, beq_iff_eq] at hp
    have hge : g = Signup.mk aid e := by
      cases g
      simp only [Signup.mk.injEq]
      exact ⟨hp.1, hp.2⟩
    exact h (hge ▸ hg)

theorem countSignups_signups_append (s : Store) (l : List Signup) (aid : Nat) :
    countSignups { s with signups := s.signups ++ l } aid
      = countSignups s aid + (l.filter (fun g => g.activity_id == aid)).length := by
  simp [countSignups, List.filter_append]

/-- The activities table is never touched by a signup call. -/
theorem signup_activities_eq (s : Store) (an e : String) :
    ((signup_for_activity s an e).1).activities = s.activities := by
  unfold signup_for_activity
  cases hfa : findActivity s an with
  | none => rfl
  | some act =>
    cases hfs : findSignup s act.id e with
    | some g => simp only [hfs]
    | none =>
      simp only [hfs]
      by_cases hcap :
          capacityFull act.max_participants (countSignups s act.id) = true
      · simp [hcap]
      · simp [hcap]

/-- The activities table is never touched by an unregister call. -/
theorem unregister_activities_eq (s : Store) (an e : String) :
    ((unregister_from_activity s an e).1).activities = s.activities := by
  unfold unregister_from_activity
  cases hfa : findActivity s an with
  | none => rfl
  | some act =>
    cases hfs : findSignup s act.id e with
    | none => simp only [hfs]
    | some g => simp only [hfs]

theorem applyCall_activities_eq (s : Store) (c : Call) :
    (applyCall s c).activities = s.activities := by
  cases c with
  | signup an e => exact signup_activities_eq s an e
  | unregister an e => exact unregister_activities_eq s an e

theorem runCalls_activities_eq (s : Store) (cs : List Call) :
    (runCalls s cs).activities = s.activities := by
  induction cs generalizing s with
  | nil => rfl
  | cons c cs ih =>
    show (runCalls (applyCall s c) cs).activities = s.activities
    rw [ih, applyCall_activities_eq]

/-- Shape of a successful signup: all three checks passed and exactly one
signup row was appended. -/
theorem signup_ok_inversion {s : Store} {an e msg : String}
    (h : (signup_for_activity s an e).2 = .ok msg) :
    ∃ act, findActivity s an = some act
      ∧ findSignup s act.id e = none
      ∧ capacityFull act.max_participants (countSignups s act.id) = false
      ∧ (signup_for_activity s an e).1
          = { s with signups := s.signups ++ [Signup.mk act.id e] } := by
  cases hfa : findActivity s an with
  | none => simp [signup_for_activity, hfa] at h
  | some act =>
    cases hfs : findSignup s act.id e with
    | some g => simp [signup_for_activity, hfa, hfs] at h
    | none =>
      by_cases hcap :
          capacityFull act.max_participants (countSignups s act.id) = true
      · simp [signup_for_activity, hfa, hfs, hcap] at h
      · simp only [Bool.not_eq_true] at hcap
        exact ⟨act, rfl, hfs, hcap, by
          simp [signup_for_activity, hfa, hfs, hcap]⟩

/-- A signup call cannot break the capacity invariant (given the schema
well-formedness: distinct primary keys and positive set maxima). -/
theorem signup_preserves_capacityInv {s : Store} (hwf : WellFormed s)
    (hinv : CapacityInv s) (an e : String) :
    CapacityInv (signup_for_activity s an e).1 := by
  cases hres : (signup_for_activity s an e).2 with
  | err st d =>
    have hst : (signup_for_activity s an e).1 = s := by
      cases hfa : findActivity s an with
      | none => simp [signup_for_activity, hfa]
      | some act =>
        cases hfs : findSignup s act.id e with
        | some g => simp [signup_for_activity, hfa, hfs]
        | none =>
          by_cases hcap :
              capacityFull act.max_participants (countSignups s act.id) = true
          · simp [signup_for_activity, hfa, hfs, hcap]
          · simp [signup_for_activity, hfa, hfs, hcap] at hres
    rw [hst]; exact hinv
  | ok msg =>
    obtain ⟨act, hfa, hfs, hcap, hstore⟩ := signup_ok_inversion hres
    rw [hstore]
    intro a ha m hm
    simp only at ha
    by_cases hid : act.id = a.id
    · have hact_mem : act ∈ s.activities := findActivity_mem hfa
      have : act = a := List.inj_on_of_nodup_map hwf.1 hact_mem ha hid
      subst this
      rw [countSignups_signups_append]
      have hmpos : 0 < m := hwf.2 act hact_mem m hm
      rw [hm] at hcap
      simp only [capacityFull, Bool.and_eq_false_iff] at hcap
      rcases hcap with hz | hle
      · simp only [bne_eq_false_iff_eq] at hz
        omega
      · simp only [decide_eq_false_iff_not, not_le] at hle
        have : (List.filter (fun g => g.activity_id == act.id)
            [Signup.mk act.id e]).length ≤ 1 := by simp [List.filter]
        omega
    · rw [countSignups_signups_append]
      have : (List.filter (fun g => g.activity_id == a.id)
          [Signup.mk act.id e]).length = 0 := by
        simp [List.filter_cons, hid]
      rw [this]
      exact hinv a ha m hm

/-- An unregister call can only shrink a signup count. -/
theorem unregister_countSignups_le (s : Store) (an e : String) (aid : Nat) :
    countSignups (unregister_from_activity s an e).1 aid ≤ countSignups s aid := by
  cases hfa : findActivity s an with
  | none => simp only [unregister_from_activity, hfa]; exact le_refl _
  | some act =>
    cases hfs : findSignup s act.id e with
    | none => simp only [unregister_from_activity, hfa, hfs]; exact le_refl _
    | some g =>
      simp only [unregister_from_activity, hfa, hfs]
      exact List.Sublist.length_le
        (List.Sublist.filter _ (List.erase_sublist g s.signups))

theorem unregister_preserves_capacityInv {s : Store} (hinv : CapacityInv s)
    (an e : String) : CapacityInv (unregister_from_activity s an e).1 := by
  intro a ha m hm
  rw [unregister_activities_eq] at ha
  exact le_trans (unregister_countSignups_le s an e a.id) (hinv a ha m hm)

/-- An error outcome means the signup call left the store untouched. -/
theorem signup_err_fst_eq {s : Store} {an e : String} {st : Nat} {d : String}
    (h : (signup_for_activity s an e).2 = .err st d) :
    (signup_for_activity s an e).1 = s := by
  cases hfa : findActivity s an with
  | none => simp [signup_for_activity, hfa]
  | some act =>
    cases hfs : findSignup s act.id e with
    | some g => simp [signup_for_activity, hfa, hfs]
    | none =>
      by_cases hcap :
          capacityFull act.max_participants (countSignups s act.id) = true
      · simp [signup_for_activity, hfa, hfs, hcap]
      · simp [signup_for_activity, hfa, hfs, hcap] at h

/-- After an unregister call the signup rows are a sublist of the
original ones. -/
theorem unregister_signups_sublist (s : Store) (an e : String) :
    ((unregister_from_activity s an e).1).signups.Sublist s.signups := by
  cases hfa : findActivity s an with
  | none =>
    simp only [unregister_from_activity, hfa]
    exact List.Sublist.refl _
  | some act =>
    cases hfs : findSignup s act.id e with
    | none =>
      simp only [unregister_from_activity, hfa, hfs]
      exact List.Sublist.refl _
    | some g =>
      simp only [unregister_from_activity, hfa, hfs]
      exact List.erase_sublist g s.signups

theorem signup_preserves_pairInv {s : Store} (hinv : PairInv s)
    (an e : String) : PairInv (signup_for_activity s an e).1 := by
  cases hres : (signup_for_activity s an e).2 with
  | err st d => rw [signup_err_fst_eq hres]; exact hinv
  | ok msg =>
    obtain ⟨act, hfa, hfs, hcap, hstore⟩ := signup_ok_inversion hres
    rw [hstore]
    intro aid e2
    simp only [List.filter_append, List.length_append]
    cases hb : ((act.id == aid) && (e == e2)) with
    | false =>
      have hone : List.filter (fun g => g.activity_id == aid && g.email == e2)
          [Signup.mk act.id e] = [] := by
        simp [List.filter_cons, hb]
      rw [hone]
      simpa using hinv aid e2
    | true =>
      rw [Bool.and_eq_true] at hb
      have haid : act.id = aid := by simpa using hb.1
      have he : e = e2 := by simpa using hb.2
      subst haid; subst he
      have hnil : s.signups.filter
          (fun g => g.activity_id == act.id && g.email == e) = [] := by
        unfold findSignup at hfs
        exact List.head?_eq_none_iff.mp hfs
      rw [hnil]
      simp [List.filter_cons]

theorem unregister_preserves_pairInv {s : Store} (hinv : PairInv s)
    (an e : String) : PairInv (unregister_from_activity s an e).1 := by
  intro aid e2
  exact le_trans
    (List.Sublist.length_le
      (List.Sublist.filter _ (unregister_signups_sublist s an e)))
    (hinv aid e2)

theorem applyCall_preserves_wellFormed {s : Store} (hwf : WellFormed s)
    (c : Call) : WellFormed (applyCall s c) := by
  unfold WellFormed at hwf ⊢
  rw [applyCall_activities_eq]
  exact hwf

theorem applyCall_preserves_capacityInv {s : Store} (hwf : WellFormed s)
    (hinv : CapacityInv s) (c : Call) : CapacityInv (applyCall s c) := by
  cases c with
  | signup an e => exact signup_preserves_capacityInv hwf hinv an e
  | unregister an e => exact unregister_preserves_capacityInv hinv an e

theorem applyCall_preserves_pairInv {s : Store} (hinv : PairInv s)
    (c : Call) : PairInv (applyCall s c) := by
  cases c with
  | signup an e => exact signup_preserves_pairInv hinv an e
  | unregister an e => exact unregister_preserves_pairInv hinv an e

theorem runCalls_preserves_capacityInv {s : Store} (hwf : WellFormed s)
    (hinv : CapacityInv s) (cs : List Call) : CapacityInv (runCalls s cs) := by
  induction cs generalizing s with
  | nil => exact hinv
  | cons c cs ih =>
    exact ih (applyCall_preserves_wellFormed hwf c)
      (applyCall_preserves_capacityInv hwf hinv c)

theorem runCalls_preserves_pairInv {s : Store} (hinv : PairInv s)
    (cs : List Call) : PairInv (runCalls s cs) := by
  induction cs generalizing s with
  | nil => exact hinv
  | cons c cs ih => exact ih (applyCall_preserves_pairInv hinv c)

/-! ### Concrete stores used by the witnesses -/

/-- A concrete store: "Chess Club" (capacity 12, two signups) and
"Tiny Club" (capacity 1, one signup, i.e. full). -/
def demoStore : Store :=
  ⟨[⟨1, "Chess Club", "Learn chess", "Fridays", some 12⟩,
    ⟨2, "Tiny Club", "Small club", "Mondays", some 1⟩],
   [⟨1, "michael@mergington.edu"⟩, ⟨1, "daniel@mergington.edu"⟩,
    ⟨2, "solo@mergington.edu"⟩]⟩

/-- A concrete store with the capacity edge cases: an unbounded activity
(`max_participants` NULL) and one with `max_participants = 0`. -/
def edgeStore : Store :=
  ⟨[⟨1, "Open Club", "No cap", "Tuesdays", none⟩,
    ⟨2, "Zero Club", "Zero cap", "Wednesdays", some 0⟩],
   []⟩

/-! ### The claims -/

/-- C1: starting from any store satisfying the schema well-formedness and
the capacity invariant, after any sequence of signup and unregister calls
the number of signups of an activity with a set maximum never exceeds that
maximum. -/
theorem capacity_never_exceeded (s : Store) (hwf : WellFormed s)
    (hinv : CapacityInv s) (cs : List Call) (a : Activity)
    (ha : a ∈ (runCalls s cs).activities) (m : Nat)
    (hm : a.max_participants = some m) :
    countSignups (runCalls s cs) a.id ≤ m :=
  runCalls_preserves_capacityInv hwf hinv cs a ha m hm

/-- C1 witness: after a successful third signup, "Chess Club" still has at
most 12 signups. -/
theorem capacity_never_exceeded_witness :
    countSignups (runCalls demoStore [Call.signup "Chess Club" "x@y.edu"]) 1
      ≤ 12 := by
  have hwf : WellFormed demoStore := by
    constructor
    · decide
    · intro a ha m hm
      fin_cases ha <;> (simp at hm; subst hm; decide)
  have hinv : CapacityInv demoStore := by
    intro a ha m hm
    fin_cases ha <;> (simp at hm; subst hm; decide)
  have hmem : (⟨1, "Chess Club", "Learn chess", "Fridays", some 12⟩ : Activity)
      ∈ (runCalls demoStore [Call.signup "Chess Club" "x@y.edu"]).activities := by
    rw [runCalls_activities_eq]
    exact List.Mem.head _
  exact capacity_never_exceeded demoStore hwf hinv
    [Call.signup "Chess Club" "x@y.edu"] _ hmem 12 rfl

/-- C2: a signup for a pair already present in the store fails with
status 400 "Student is already signed up" and returns the store unchanged;
moreover the at-most-one-signup-per-pair invariant is preserved by every
sequence of calls. -/
theorem duplicate_signup_rejected (s : Store) (an e : String)
    (act : Activity) (hfa : findActivity s an = some act)
    (hmem : Signup.mk act.id e ∈ s.signups) :
    (signup_for_activity s an e
        = (s, .err 400 "Student is already signed up"))
    ∧ ∀ s0 : Store, PairInv s0 → ∀ cs : List Call, PairInv (runCalls s0 cs) := by
  constructor
  · have hfs : findSignup s act.id e ≠ none := fun h =>
      (findSignup_eq_none_iff.mp h) hmem
    cases hfs2 : findSignup s act.id e with
    | none => exact absurd hfs2 hfs
    | some g => simp [signup_for_activity, hfa, hfs2]
  · intro s0 h0 cs
    exact runCalls_preserves_pairInv h0 cs

/-- C2 witness: signing "michael@mergington.edu" up for "Chess Club" a
second time is rejected and the store is untouched. -/
theorem duplicate_signup_rejected_witness :
    signup_for_activity demoStore "Chess Club" "michael@mergington.edu"
      = (demoStore, .err 400 "Student is already signed up") :=
  (duplicate_signup_rejected demoStore "Chess Club" "michael@mergington.edu"
    ⟨1, "Chess Club", "Learn chess", "Fridays", some 12⟩
    (by decide) (List.Mem.head _)).1

/-- C3: the signup checks run in a fixed order (resolve activity, then
duplicate, then capacity, then insert), so an unknown name always yields
NotFound, a duplicate always yields AlreadyRegistered even when the
activity is also full, and the capacity error only fires when the first
two checks passed. -/
theorem signup_check_order (s : Store) (an e : String) :
    (findActivity s an = none →
      signup_for_activity s an e = (s, .err 404 "Activity not found"))
  ∧ (∀ act, findActivity s an = some act → findSignup s act.id e ≠ none →
      signup_for_activity s an e = (s, .err 400 "Student is already signed up"))
  ∧ (∀ act, findActivity s an = some act → findSignup s act.id e = none →
      capacityFull act.max_participants (countSignups s act.id) = true →
      signup_for_activity s an e = (s, .err 400 "Activity is full"))
  ∧ (∀ act, findActivity s an = some act → findSignup s act.id e = none →
      capacityFull act.max_participants (countSignups s act.id) = false →
      signup_for_activity s an e
        = ({ s with signups := s.signups ++ [Signup.mk act.id e] },
           .ok ("Signed up " ++ e ++ " for " ++ an))) := by
  refine ⟨?_, ?_, ?_, ?_⟩
  · intro h
    simp [signup_for_activity, h]
  · intro act hfa hfs
    cases hfs2 : findSignup s act.id e with
    | none => exact absurd hfs2 hfs
    | some g => simp [signup_for_activity, hfa, hfs2]
  · intro act hfa hfs hcap
    simp [signup_for_activity, hfa, hfs, hcap]
  · intro act hfa hfs hcap
    simp [signup_for_activity, hfa, hfs, hcap]

/-- C3 witness: the four branches at concrete inputs; in the second one
"Tiny Club" is both full and already holds the email, and the duplicate
error wins over the capacity error. -/
theorem signup_check_order_witness :
    (signup_for_activity demoStore "Nope" "a@b.edu"
      = (demoStore, .err 404 "Activity not found"))
  ∧ (signup_for_activity demoStore "Tiny Club" "solo@mergington.edu"
      = (demoStore, .err 400 "Student is already signed up"))
  ∧ (signup_for_activity demoStore "Tiny Club" "new@mergington.edu"
      = (demoStore, .err 400 "Activity is full"))
  ∧ (signup_for_activity demoStore "Chess Club" "x@y.edu"
      = ({ demoStore with
            signups := demoStore.signups ++ [Signup.mk 1 "x@y.edu"] },
         .ok ("Signed up " ++ "x@y.edu" ++ " for " ++ "Chess Club"))) := by
  refine ⟨(signup_check_order demoStore "Nope" "a@b.edu").1 (by decide),
    (signup_check_order demoStore "Tiny Club" "solo@mergington.edu").2.1
      ⟨2, "Tiny Club", "Small club", "Mondays", some 1⟩
      (by decide) (by decide),
    (signup_check_order demoStore "Tiny Club" "new@mergington.edu").2.2.1
      ⟨2, "Tiny Club", "Small club", "Mondays", some 1⟩
      (by decide) (by decide) (by decide),
    (signup_check_order demoStore "Chess Club" "x@y.edu").2.2.2
      ⟨1, "Chess Club", "Learn chess", "Fridays", some 12⟩
      (by decide) (by decide) (by decide)⟩

/-- C4: a signup for a not-yet-registered email against an activity whose
maximum is set (a positive integer, per the data model) and already
reached fails with status 400 "Activity is full" and leaves the store
unchanged. -/
theorem signup_capacity_rejected (s : Store) (an e : String) (act : Activity)
    (m : Nat) (hfa : findActivity s an = some act)
    (hm : act.max_participants = some m) (hmpos : 0 < m)
    (hcount : m ≤ countSignups s act.id)
    (hfresh : Signup.mk act.id e ∉ s.signups) :
    signup_for_activity s an e = (s, .err 400 "Activity is full") := by
  have hfs : findSignup s act.id e = none := findSignup_eq_none_iff.mpr hfresh
  have hcap : capacityFull act.max_participants (countSignups s act.id) = true := by
    rw [hm]
    simp only [capacityFull, Bool.and_eq_true, bne_iff_ne, ne_eq,
      decide_eq_true_eq]
    exact ⟨by omega, hcount⟩
  simp [signup_for_activity, hfa, hfs, hcap]

/-- C4 witness: "Tiny Club" has `max_participants = 1` and one signup; a
new signup is rejected with "Activity is full" and the store still shows
exactly one participant. -/
theorem signup_capacity_rejected_witness :
    (signup_for_activity demoStore "Tiny Club" "new@mergington.edu"
      = (demoStore, .err 400 "Activity is full"))
    ∧ countSignups
        (signup_for_activity demoStore "Tiny Club" "new@mergington.edu").1 2
      = 1 := by
  have h := signup_capacity_rejected demoStore "Tiny Club" "new@mergington.edu"
    ⟨2, "Tiny Club", "Small club", "Mondays", some 1⟩ 1
    (by decide) rfl (by decide) (by decide) (by decide)
  exact ⟨h, by rw [h]; decide⟩

/-- C5: when a signup succeeds, unregistering the same pair right after
succeeds and restores exactly the original store (hence the original
signup count). -/
theorem signup_unregister_roundtrip (s : Store) (an e msg : String)
    (h : (signup_for_activity s an e).2 = .ok msg) :
    (unregister_from_activity (signup_for_activity s an e).1 an e).1 = s
    ∧ (unregister_from_activity (signup_for_activity s an e).1 an e).2
        = .ok ("Unregistered " ++ e ++ " from " ++ an) := by
  obtain ⟨act, hfa, hfs, hcap, hstore⟩ := signup_ok_inversion h
  rw [hstore]
  have hnotmem : Signup.mk act.id e ∉ s.signups := findSignup_eq_none_iff.mp hfs
  have hnil : s.signups.filter
      (fun g => g.activity_id == act.id && g.email == e) = [] := by
    unfold findSignup at hfs
    exact List.head?_eq_none_iff.mp hfs
  have hfa2 : findActivity
      { s with signups := s.signups ++ [Signup.mk act.id e] } an
      = some act := hfa
  have hfs2 : findSignup
      { s with signups := s.signups ++ [Signup.mk act.id e] } act.id e
      = some (Signup.mk act.id e) := by
    unfold findSignup
    simp only [List.filter_append, hnil, List.nil_append]
    simp [List.filter_cons]
  have herase : (s.signups ++ [Signup.mk act.id e]).erase (Signup.mk act.id e)
      = s.signups := by
    rw [List.erase_append_right _ hnotmem]
    simp
  constructor
  · simp only [unregister_from_activity, hfa2, hfs2, herase]
  · simp only [unregister_from_activity, hfa2, hfs2]

/-- C5 witness: the round trip at a concrete store. -/
theorem signup_unregister_roundtrip_witness :
    (unregister_from_activity
        (signup_for_activity demoStore "Chess Club" "x@y.edu").1
        "Chess Club" "x@y.edu").1 = demoStore :=
  (signup_unregister_roundtrip demoStore "Chess Club" "x@y.edu"
    ("Signed up " ++ "x@y.edu" ++ " for " ++ "Chess Club") (by decide)).1

/-- C6: unregistering a pair with no existing signup for an existing
activity fails with status 400 "Student is not signed up for this
activity" and mutates nothing. -/
theorem unregister_not_registered (s : Store) (an e : String) (act : Activity)
    (hfa : findActivity s an = some act)
    (hfresh : Signup.mk act.id e ∉ s.signups) :
    unregister_from_activity s an e
      = (s, .err 400 "Student is not signed up for this activity") := by
  have hfs : findSignup s act.id e = none := findSignup_eq_none_iff.mpr hfresh
  simp [unregister_from_activity, hfa, hfs]

/-- C6 witness: "x@y.edu" is not signed up for "Chess Club". -/
theorem unregister_not_registered_witness :
    unregister_from_activity demoStore "Chess Club" "x@y.edu"
      = (demoStore, .err 400 "Student is not signed up for this activity") :=
  unregister_not_registered demoStore "Chess Club" "x@y.edu"
    ⟨1, "Chess Club", "Learn chess", "Fridays", some 12⟩
    (by decide) (by decide)

/-- C7: against a name that resolves to no activity, both signup and
unregister fail with status 404 "Activity not found", whatever the email
is, and the store is unchanged. -/
theorem unknown_activity_not_found (s : Store) (an : String)
    (h : findActivity s an = none) (e : String) :
    signup_for_activity s an e = (s, .err 404 "Activity not found")
    ∧ unregister_from_activity s an e = (s, .err 404 "Activity not found") :=
  ⟨by simp [signup_for_activity, h], by simp [unregister_from_activity, h]⟩

/-- C7 witness: "Knitting Club" is not in the demo store. -/
theorem unknown_activity_not_found_witness :
    signup_for_activity demoStore "Knitting Club" "a@b.edu"
      = (demoStore, .err 404 "Activity not found")
    ∧ unregister_from_activity demoStore "Knitting Club" "a@b.edu"
      = (demoStore, .err 404 "Activity not found") :=
  unknown_activity_not_found demoStore "Knitting Club" (by decide) "a@b.edu"

/-- C10: a signup fails with "Activity is full" exactly when the activity
resolves, the pair is not yet registered, and `max_participants` is a
truthy value (non-null and nonzero) not exceeding the current count; in
particular an activity whose `max_participants` is NULL or 0 never
produces the capacity error. -/
theorem capacity_error_characterization (s : Store) (an e : String) :
    ((signup_for_activity s an e).2 = .err 400 "Activity is full"
      ↔ ∃ act, findActivity s an = some act
          ∧ findSignup s act.id e = none
          ∧ ∃ m, act.max_participants = some m ∧ m ≠ 0
              ∧ m ≤ countSignups s act.id)
  ∧ (∀ act, findActivity s an = some act →
      (act.max_participants = none ∨ act.max_participants = some 0) →
      (signup_for_activity s an e).2 ≠ .err 400 "Activity is full") := by
  have hiff : (signup_for_activity s an e).2 = .err 400 "Activity is full"
      ↔ ∃ act, findActivity s an = some act
          ∧ findSignup s act.id e = none
          ∧ ∃ m, act.max_participants = some m ∧ m ≠ 0
              ∧ m ≤ countSignups s act.id := by
    constructor
    · intro h
      cases hfa : findActivity s an with
      | none => simp [signup_for_activity, hfa] at h
      | some act =>
        cases hfs : findSignup s act.id e with
        | some g => simp [signup_for_activity, hfa, hfs] at h
        | none =>
          by_cases hcap :
              capacityFull act.max_participants (countSignups s act.id) = true
          · refine ⟨act, rfl, hfs, ?_⟩
            cases hmp : act.max_participants with
            | none => rw [hmp] at hcap; simp [capacityFull] at hcap
            | some m =>
              rw [hmp] at hcap
              simp only [capacityFull, Bool.and_eq_true, bne_iff_ne, ne_eq,
                decide_eq_true_eq] at hcap
              exact ⟨m, rfl, hcap.1, hcap.2⟩
          · simp [signup_for_activity, hfa, hfs, hcap] at h
    · rintro ⟨act, hfa, hfs, m, hm, hmz, hmle⟩
      have hcap : capacityFull act.max_participants
          (countSignups s act.id) = true := by
        rw [hm]
        simp only [capacityFull, Bool.and_eq_true, bne_iff_ne, ne_eq,
          decide_eq_true_eq]
        exact ⟨hmz, hmle⟩
      simp [signup_for_activity, hfa, hfs, hcap]
  refine ⟨hiff, ?_⟩
  intro act hfa hdeg h
  obtain ⟨act2, hfa2, _, m, hm2, hmz, _⟩ := hiff.mp h
  rw [hfa] at hfa2
  cases hfa2
  rcases hdeg with hnone | hzero
  · rw [hnone] at hm2; exact Option.noConfusion hm2
  · rw [hzero] at hm2
    exact hmz (Option.some.injEq _ _ ▸ hm2).symm

/-- C10 witness: "Tiny Club" (full) produces the capacity error; the
unbounded "Open Club" and the zero-capacity "Zero Club" never do. -/
theorem capacity_error_characterization_witness :
    ((signup_for_activity demoStore "Tiny Club" "new@mergington.edu").2
      = .err 400 "Activity is full")
    ∧ (signup_for_activity edgeStore "Open Club" "a@b.edu").2
        ≠ .err 400 "Activity is full"
    ∧ (signup_for_activity edgeStore "Zero Club" "a@b.edu").2
        ≠ .err 400 "Activity is full" :=
  ⟨(capacity_error_characterization demoStore "Tiny Club"
      "new@mergington.edu").1.mpr
      ⟨⟨2, "Tiny Club", "Small club", "Mondays", some 1⟩,
        by decide, by decide, 1, rfl, by decide, by decide⟩,
   (capacity_error_characterization edgeStore "Open Club" "a@b.edu").2
      ⟨1, "Open Club", "No cap", "Tuesdays", none⟩ (by decide) (Or.inl rfl),
   (capacity_error_characterization edgeStore "Zero Club" "a@b.edu").2
      ⟨2, "Zero Club", "Zero cap", "Wednesdays", some 0⟩ (by decide)
      (Or.inr rfl)⟩

/-- Inserting a fresh key into the result dict appends an entry. -/
theorem dictInsert_fresh {d : List (String × ActivityView)} {k : String}
    (v : ActivityView) (h : ∀ p ∈ d, p.1 ≠ k) :
    dictInsert d k v = d ++ [(k, v)] := by
  have hc : ¬(d.any (fun p => p.1 == k) = true) := by
    simp only [List.any_eq_true, beq_iff_eq, not_exists, not_and]
    exact h
  unfold dictInsert
  rw [if_neg hc]

/-- Folding dict insertion over activities with pairwise distinct names
appends one entry per activity. -/
theorem foldl_dictInsert_eq (f : Activity → ActivityView) (l : List Activity) :
    ∀ acc : List (String × ActivityView),
      (∀ p ∈ acc, ∀ a ∈ l, p.1 ≠ a.name) →
      (l.map (fun a => a.name)).Nodup →
      l.foldl (fun result a => dictInsert result a.name (f a)) acc
        = acc ++ l.map (fun a => (a.name, f a)) := by
  induction l with
  | nil => intro acc _ _; simp
  | cons a l ih =>
    intro acc hdisj hnd
    simp only [List.foldl_cons, List.map_cons]
    rw [dictInsert_fresh (f a)
      (fun p hp => hdisj p hp a (List.mem_cons_self a l)), ih]
    · simp
    · intro p hp b hb
      rcases List.mem_append.mp hp with hp1 | hp2
      · exact hdisj p hp1 b (List.mem_cons_of_mem a hb)
      · have hpa : p = (a.name, f a) := by simpa using hp2
        subst hpa
        intro hcontra
        have h1 := (List.nodup_cons.mp hnd).1
        apply h1
        show a.name ∈ List.map (fun x => x.name) l
        have hcontra2 : a.name = b.name := hcontra
        rw [hcontra2]
        exact List.mem_map_of_mem (fun x => x.name) hb
    · exact (List.nodup_cons.mp hnd).2

/-- C8: with unique activity names (a schema constraint),
`get_activities` returns exactly one entry per activity, in store order,
mapping the name to exactly its description, schedule, max_participants
and the ordered list of its participants' emails. It is a pure total
function of the store, so it has no side effects and never fails. -/
theorem get_activities_correct (s : Store)
    (h : (s.activities.map (fun a => a.name)).Nodup) :
    get_activities s
      = s.activities.map (fun a =>
          (a.name,
           (⟨a.description, a.schedule, a.max_participants,
             (s.signups.filter (fun g => g.activity_id == a.id)).map
               (fun g => g.email)⟩ : ActivityView))) := by
  have hfold := foldl_dictInsert_eq
    (fun a => (⟨a.description, a.schedule, a.max_participants,
      (s.signups.filter (fun g => g.activity_id == a.id)).map
        (fun g => g.email)⟩ : ActivityView))
    s.activities []
    (fun p hp => absurd hp (List.not_mem_nil p)) h
  unfold get_activities
  simpa using hfold

/-- C8 witness: the full listing of the demo store. -/
theorem get_activities_correct_witness :
    get_activities demoStore
      = [("Chess Club",
          ⟨"Learn chess", "Fridays", some 12,
           ["michael@mergington.edu", "daniel@mergington.edu"]⟩),
         ("Tiny Club",
          ⟨"Small club", "Mondays", some 1, ["solo@mergington.edu"]⟩)] := by
  rw [get_activities_correct demoStore (by decide)]
  rfl

theorem seedInsert_activities_length (s : Store) (a : SeedActivity) :
    (seedInsert s a).activities.length = s.activities.length + 1 := by
  simp [seedInsert]

theorem seedFoldl_activities_length (l : List SeedActivity) :
    ∀ s : Store, (l.foldl seedInsert s).activities.length
      = s.activities.length + l.length := by
  induction l with
  | nil => intro s; simp
  | cons a l ih =>
    intro s
    rw [List.foldl_cons, ih, seedInsert_activities_length]
    simp only [List.length_cons]
    omega

/-- C9: the seed data has exactly 9 activities; seeding a non-empty store
is a no-op; seeding an empty store (no activities, hence no signup rows by
the referential invariant) installs exactly those 9 activities with their
initial participant emails as signups; and seeding twice equals seeding
once. -/
theorem seed_if_empty_correct :
    INITIAL_ACTIVITIES.length = 9
  ∧ (∀ s : Store, s.activities ≠ [] → seed_if_empty s = s)
  ∧ (∀ s : Store, s.activities = [] → s.signups = [] →
      (seed_if_empty s).activities.map
          (fun a => (a.name, a.description, a.schedule, a.max_participants))
        = INITIAL_ACTIVITIES.map
            (fun a => (a.name, a.description, a.schedule,
              some a.max_participants))
      ∧ (seed_if_empty s).activities.map
            (fun a => ((seed_if_empty s).signups.filter
              (fun g => g.activity_id == a.id)).map (fun g => g.email))
          = INITIAL_ACTIVITIES.map (fun a => a.participants))
  ∧ (∀ s : Store, seed_if_empty (seed_if_empty s) = seed_if_empty s) := by
  have hnoop : ∀ t : Store, t.activities ≠ [] → seed_if_empty t = t := by
    intro t ht
    unfold seed_if_empty
    rw [if_neg (fun hh => ht (List.length_eq_zero.mp hh))]
  refine ⟨rfl, hnoop, ?_, ?_⟩
  · intro s h1 h2
    obtain ⟨acts, sgns⟩ := s
    have h1a : acts = [] := h1
    have h2a : sgns = [] := h2
    subst h1a
    subst h2a
    exact ⟨rfl, rfl⟩
  · intro s
    by_cases h : s.activities = []
    · apply hnoop
      have hlen : (seed_if_empty s).activities.length
          = s.activities.length + 9 := by
        unfold seed_if_empty
        rw [if_pos (by rw [h]; rfl), seedFoldl_activities_length]
        have h9 : INITIAL_ACTIVITIES.length = 9 := rfl
        rw [h9]
      intro hnil
      rw [hnil] at hlen
      simp at hlen
    · rw [hnoop s h]
      exact hnoop s h

/-- C9 witness: seeding the non-empty demo store changes nothing; seeding
the empty store installs the 9 seed activities; seeding twice equals
seeding once. -/
theorem seed_if_empty_correct_witness :
    seed_if_empty demoStore = demoStore
    ∧ (seed_if_empty (⟨[], []⟩ : Store)).activities.map
        (fun a => (a.name, a.description, a.schedule, a.max_participants))
      = INITIAL_ACTIVITIES.map
          (fun a => (a.name, a.description, a.schedule,
            some a.max_participants))
    ∧ seed_if_empty (seed_if_empty (⟨[], []⟩ : Store))
        = seed_if_empty (⟨[], []⟩ : Store) :=
  ⟨seed_if_empty_correct.2.1 demoStore (by decide),
   (seed_if_empty_correct.2.2.1 (⟨[], []⟩ : Store) rfl rfl).1,
   seed_if_empty_correct.2.2.2 (⟨[], []⟩ : Store)⟩
